import Mathlib

/-!
Shallow embedding of the device-manager-web client list pipeline
(`src/js/devices.js`, `src/js/auth.js`, api.js) and proofs about it.

The mutable module-level `state` object of devices.js becomes the `State`
structure; each event handler becomes a pure function from `State` to
`State` (paired with the number of reload requests it issues where a claim
needs that).  Asynchronous completions are modelled as explicit event
lists processed in arrival order, exactly as the single-threaded event
loop runs the continuations.
-/

/-- The `state` object of devices.js (lines 10-20). -/
structure State where
  page       : Nat
  size       : Nat
  sort       : String
  direction  : String
  status     : String
  type       : String
  q          : String
  totalPages : Nat
  totalItems : Nat
deriving DecidableEq

/-- Initial value of `state` (devices.js lines 10-20). -/
def initState : State :=
  { page := 0, size := 20, sort := "name", direction := "asc",
    status := "", type := "", q := "", totalPages := 0, totalItems := 0 }

/-- A device record; only presence matters for the render claims. -/
structure Device where
  id   : String
  name : String
deriving DecidableEq

/-- Wire shape of a collection-fetch response: `{content, totalElements,
totalPages}`.  Fields are `Option` because devices.js reads them with
`?? 0` / `?? []` null-coalescing. -/
structure FetchResp where
  content       : Option (List Device)
  totalElements : Option Nat
  totalPages    : Option Nat
deriving DecidableEq

/-- The success continuation of `loadDevices` (devices.js lines 118-119):
`state.totalPages = data.totalPages ?? 0; state.totalItems =
data.totalElements ?? 0`.  Note that `state.page` is NOT touched. -/
def applyResponse (s : State) (data : FetchResp) : State :=
  { s with totalPages := data.totalPages.getD 0,
           totalItems := data.totalElements.getD 0 }

/-- `loadDevices` attaches no generation token: whenever a `getDevices`
promise resolves, its continuation (lines 118-127) runs with that
response and mutates `state` unconditionally.  A list of responses in
arrival order is therefore folded through `applyResponse`. -/
def processArrivals (s : State) (arrivals : List FetchResp) : State :=
  arrivals.foldl applyResponse s

/-- `sortBy` (devices.js lines 229-238), minus the trailing
`loadDevices()` call. -/
def sortBy (col : String) (s : State) : State :=
  let s :=
    if s.sort = col then
      { s with direction := if s.direction = "asc" then "desc" else "asc" }
    else
      { s with sort := col, direction := "asc" }
  { s with page := 0 }

/-- `goToPage` (devices.js lines 303-308).  The second component counts
the `loadDevices()` calls the handler issues.  The guard
`if (p < 0 || p >= state.totalPages) return;` leaves everything
untouched. -/
def goToPage (p : Int) (s : State) : State × Nat :=
  if p < 0 ∨ (s.totalPages : Int) ≤ p then (s, 0)
  else ({ s with page := p.toNat }, 1)

/-- What the `#table-content` area shows after a load attempt. -/
inductive TableView where
| errorView (msg : String)
| noResults
| rows (devices : List Device)
deriving DecidableEq

/-- `renderTable` (devices.js lines 139-223): the `devices.length === 0`
branch renders the "No devices found" empty state, otherwise rows. -/
def renderTable (devices : List Device) : TableView :=
  if devices.length = 0 then TableView.noResults else TableView.rows devices

/-- Outcome of one `getDevices` call as `loadDevices` sees it. -/
inductive FetchOutcome where
| success (data : FetchResp)
| failure (msg : String)
deriving DecidableEq

/-- The table view `loadDevices` (lines 106-137) leaves behind: the
`catch` branch (lines 128-136) overwrites `#table-content` with the
error block carrying `err.message`; the success path calls
`renderTable(data.content ?? [])`. -/
def loadDevicesView : FetchOutcome → TableView
| FetchOutcome.failure m => TableView.errorView m
| FetchOutcome.success d => renderTable (d.content.getD [])

-- ---------------------------------------------------------------------------
-- apiFetch / logout (api.js, auth.js)
-- ---------------------------------------------------------------------------

/-- Result of one `apiFetch` call (api.js lines 15-40). -/
inductive ApiOutcome where
| ok
| loggedOut
| threw (msg : String)
deriving DecidableEq

/-- `response.ok` of the Fetch API: status in the range 200-299. -/
def respOk (status : Nat) : Bool :=
  decide (200 ≤ status ∧ status ≤ 299)

/-- `apiFetch` control flow (api.js lines 15-40): `status === 401` calls
`logout()` and returns; any other non-ok status throws an `Error`
carrying the extracted message; otherwise the call succeeds. -/
def apiFetch (status : Nat) (errMsg : String) : ApiOutcome :=
  if status = 401 then ApiOutcome.loggedOut
  else if respOk status then ApiOutcome.ok
  else ApiOutcome.threw errMsg

/-- Browser session storage plus current location, as auth.js uses it. -/
structure Session where
  auth     : Option String
  user     : Option String
  location : String
deriving DecidableEq

/-- `logout` (auth.js lines 35-39): remove both sessionStorage keys and
navigate to the login page. -/
def logout (_s : Session) : Session :=
  { auth := none, user := none, location := "index.html" }

/-- Number of `logout()` invocations when the given in-flight responses
(by HTTP status) are delivered: one per response that takes the 401
branch of `apiFetch`. -/
def teardownCount (statuses : List Nat) : Nat :=
  statuses.countP (fun st => decide (apiFetch st "" = ApiOutcome.loggedOut))

-- ---------------------------------------------------------------------------
-- Pagination renderer (devices.js lines 288-301)
-- ---------------------------------------------------------------------------

/-- One entry of the pagination range: a concrete page number or the
ellipsis marker pushed for a gap. -/
inductive PageItem where
| page (n : Nat)
| ellipsis
deriving DecidableEq

/-- `Set.prototype.add` on the insertion-ordered list representation of
a JS `Set` of numbers. -/
def setAdd (l : List Nat) (x : Nat) : List Nat :=
  if x ∈ l then l else l ++ [x]

/-- The ascending list `[lo, lo+1, ..., hi]` (empty when `hi < lo`):
the values taken by the loop `for (i = lo; i <= hi; i++)`. -/
def natRangeFromTo (lo hi : Nat) : List Nat :=
  (List.range (hi + 1 - lo)).map (· + lo)

/-- The `Set` built by `buildPageRange`: `new Set([0, total-1, current])`
then `range.add(i)` for `i` from `max(1, current-2)` to
`min(total-2, current+2)`. -/
def pageSetList (current total : Nat) : List Nat :=
  (natRangeFromTo (max 1 (current - 2)) (min (total - 2) (current + 2))).foldl setAdd
    (setAdd (setAdd (setAdd [] 0) (total - 1)) current)

/-- `[...range].sort((a, b) => a - b)`: the set's elements in ascending
order. -/
def sortedPages (current total : Nat) : List Nat :=
  (pageSetList current total).insertionSort (· ≤ ·)

/-- The `sorted.forEach` walk of `buildPageRange` from the second
element on: `prev` is the previous entry; a gap of more than 1 pushes
the ellipsis before the page. -/
def withEllipsis : Nat → List Nat → List PageItem
| _, [] => []
| prev, p :: rest =>
    (if p - prev > 1 then [PageItem.ellipsis, PageItem.page p] else [PageItem.page p]) ++
      withEllipsis p rest

/-- `buildPageRange` (devices.js lines 288-301). -/
def buildPageRange (current total : Nat) : List PageItem :=
  if total ≤ 7 then (List.range total).map PageItem.page
  else
    match sortedPages current total with
    | [] => []
    | p :: rest => PageItem.page p :: withEllipsis p rest

/-- Modelled from the spec's words (§4.4): the sorted set
`{0, totalPages-1, currentPage}` united with every page within distance
2 of `currentPage` clamped to `[1, totalPages-2]`, as a filtered
ascending range. -/
def specPageNumbers (current total : Nat) : List Nat :=
  (List.range total).filter (fun p =>
    decide (p = 0 ∨ p = total - 1 ∨ p = current ∨
      (1 ≤ p ∧ p ≤ total - 2 ∧ current ≤ p + 2 ∧ p ≤ current + 2)))

/-- Modelled from the spec's words (§4.4): walk the sorted entries in
order, inserting an ellipsis marker wherever the gap between
consecutive entries exceeds 1. -/
def specWalk : Nat → List Nat → List PageItem
| _, [] => []
| prev, p :: rest =>
    (if p - prev > 1 then [PageItem.ellipsis, PageItem.page p] else [PageItem.page p]) ++
      specWalk p rest

/-- Modelled from the spec's words (§4.4): all pages in order when
`totalPages ≤ 7`, otherwise the gap-walk over the sorted page set. -/
def specPageRange (current total : Nat) : List PageItem :=
  if total ≤ 7 then (List.range total).map PageItem.page
  else
    match specPageNumbers current total with
    | [] => []
    | p :: rest => PageItem.page p :: specWalk p rest

/-- Number of concrete page links in a rendered range. -/
def pageCount (l : List PageItem) : Nat :=
  l.countP (fun i => match i with | PageItem.page _ => true | PageItem.ellipsis => false)

/-- Number of ellipsis markers in a rendered range. -/
def ellipsisCount (l : List PageItem) : Nat :=
  l.countP (fun i => match i with | PageItem.page _ => false | PageItem.ellipsis => true)

/-- The run `[start, start+1, ..., start+n-1]` of consecutive numbers,
used as a normal form for `natRangeFromTo`. -/
def consRun : Nat → Nat → List Nat
| _, 0 => []
| start, n + 1 => start :: consRun (start + 1) n

-- ---------------------------------------------------------------------------
-- Search debouncer (devices.js lines 55-62)
-- ---------------------------------------------------------------------------

/-- The debounce window of the search-input listener: `setTimeout(…, 350)`. -/
def searchWindow : Nat := 350

/-- The `searchDebounce` timer handle plus the commits it has fired:
`pending` is the scheduled `(deadline, text)` of the armed timeout (if
any), `commits` the text values whose timeouts have fired, in order. -/
structure DebounceState where
  pending : Option (Nat × String)
  commits : List String
deriving DecidableEq

/-- One `input` event at logical time `ev.fst` carrying text `ev.snd`
(devices.js lines 55-62).  On the single-threaded event loop a timer
whose deadline has passed fires before the next input event is handled,
committing its text; then `clearTimeout` discards any still-pending
timer and `setTimeout` arms a new one for `now + 350`. -/
def notifyStep (d : DebounceState) (ev : Nat × String) : DebounceState :=
  let fired : DebounceState :=
    match d.pending with
    | some (deadline, tx) =>
        if deadline ≤ ev.fst then
          { pending := none, commits := d.commits ++ [tx] }
        else d
    | none => d
  { fired with pending := some (ev.fst + searchWindow, ev.snd) }

/-- Run a burst of input events (time-ordered) from the idle state. -/
def runNotifies (evs : List (Nat × String)) : DebounceState :=
  evs.foldl notifyStep { pending := none, commits := [] }

/-- At least `searchWindow` of silence after the last event: the armed
timer (if any) fires and commits its text. -/
def flushQuiet (d : DebounceState) : DebounceState :=
  match d.pending with
  | some (_, tx) => { pending := none, commits := d.commits ++ [tx] }
  | none => d

/-- The body of the debounced timeout (devices.js lines 57-61):
`state.q = text.trim(); state.page = 0; loadDevices()`.  The second
component counts the reload requests issued. -/
def commitSearch (text : String) (s : State) : State × Nat :=
  ({ s with q := text.trim, page := 0 }, 1)

-- ---------------------------------------------------------------------------
-- escapeHtml (devices.js lines 506-514)
-- ---------------------------------------------------------------------------

/-- The double-quote character. -/
def quoteChar : Char := Char.ofNat 34

/-- The single-quote (apostrophe) character. -/
def aposChar : Char := Char.ofNat 39

/-- One `.replace(/c/g, rep)` pass over the character list: every
occurrence of the single character `c` becomes `rep`, all other
characters are kept. -/
def replaceEach (c : Char) (rep : List Char) : List Char → List Char
| [] => []
| ch :: rest => (if ch = c then rep else [ch]) ++ replaceEach c rep rest

/-- The five sequential global replaces of `escapeHtml`, in source
order: `&` first, then `<`, `>`, the double quote and the single
quote. -/
def escapeChain (l : List Char) : List Char :=
  replaceEach aposChar "&#39;".data
    (replaceEach quoteChar "&quot;".data
      (replaceEach '>' "&gt;".data
        (replaceEach '<' "&lt;".data
          (replaceEach '&' "&amp;".data l))))

/-- `escapeHtml` (devices.js lines 506-514): `null`/`undefined` becomes
the empty string; otherwise the five global replaces are applied in
source order. -/
def escapeHtml : Option String → String
| none => ""
| some s => ⟨escapeChain s.data⟩

/-- Modelled from the claim's words: the entity substitution applied to
one character — each of the five special characters becomes its HTML
entity, every other character passes through unchanged. -/
def escapeCharSpec (c : Char) : List Char :=
  if c = '&' then "&amp;".data
  else if c = '<' then "&lt;".data
  else if c = '>' then "&gt;".data
  else if c = quoteChar then "&quot;".data
  else if c = aposChar then "&#39;".data
  else [c]

/-- Modelled from the claim's words: simultaneous per-character entity
substitution over the whole string. -/
def escapeHtmlSpec (s : String) : String :=
  ⟨(s.data.map escapeCharSpec).flatten⟩

-- ---------------------------------------------------------------------------
-- Theorems for C1, C2, C3, C6, C8, C9
-- ---------------------------------------------------------------------------

/-- C1: the spec requires a generation token so that a late response to
an older reload request is dropped; `loadDevices` has no such token and
applies every response on arrival.  Concretely: request A is issued,
then request B; B's response (2 pages, 30 items) arrives first, then A's
late response (5 pages, 90 items).  The code leaves A's stale data in
the Result Summary instead of B's. -/
theorem c1_loadDevices_applies_stale_response :
    (processArrivals initState
      [{ content := some [], totalElements := some 30, totalPages := some 2 },
       { content := some [], totalElements := some 90, totalPages := some 5 }]).totalItems = 90 ∧
    (processArrivals initState
      [{ content := some [], totalElements := some 30, totalPages := some 2 },
       { content := some [], totalElements := some 90, totalPages := some 5 }]).totalPages = 5 ∧
    ¬ (processArrivals initState
      [{ content := some [], totalElements := some 30, totalPages := some 2 },
       { content := some [], totalElements := some 90, totalPages := some 5 }]).totalItems = 30 := by
  refine ⟨rfl, rfl, ?_⟩
  decide

/-- C2: the spec requires `pageIndex < totalPages` to be restored (by
clamping or reloading page 0) when a reload response reduces
`totalPages` to at most the current `pageIndex`; `loadDevices` only
stores the new totals and never touches `state.page`.  Concretely: on
page 5 of 10, a response reporting 3 total pages leaves `page = 5` with
`totalPages = 3`. -/
theorem c2_applyResponse_retains_out_of_range_page :
    (applyResponse { initState with page := 5, totalPages := 10, totalItems := 200 }
      { content := some [], totalElements := some 41, totalPages := some 3 }).page = 5 ∧
    (applyResponse { initState with page := 5, totalPages := 10, totalItems := 200 }
      { content := some [], totalElements := some 41, totalPages := some 3 }).totalPages = 3 ∧
    ¬ (applyResponse { initState with page := 5, totalPages := 10, totalItems := 200 }
        { content := some [], totalElements := some 41, totalPages := some 3 }).page <
      (applyResponse { initState with page := 5, totalPages := 10, totalItems := 200 }
        { content := some [], totalElements := some 41, totalPages := some 3 }).totalPages := by
  refine ⟨rfl, rfl, ?_⟩
  decide

/-- C3 counterexample: the claim says session teardown is triggered
exactly once even when several in-flight requests each receive a 401;
`apiFetch` has no once-only guard, so two in-flight 401 responses invoke
`logout()` twice, not once. -/
theorem c3_teardown_not_exactly_once :
    teardownCount [401, 401] = 2 ∧ teardownCount [401, 401] ≠ 1 := by
  constructor
  · rfl
  · decide

/-- C3 amended: every 401 response triggers session teardown (never a
normal thrown error), teardown is invoked once per 401 response among
the in-flight responses, and `logout` is idempotent: its result always
has credentials cleared and location `index.html`, so repeated
invocations leave the same logged-out session as a single one. -/
theorem c3_teardown_once_per_401 (statuses : List Nat) (msg : String) (s : Session) :
    apiFetch 401 msg = ApiOutcome.loggedOut ∧
    (∀ m, apiFetch 401 msg ≠ ApiOutcome.threw m) ∧
    teardownCount statuses = (statuses.filter (fun st => decide (st = 401))).length ∧
    logout (logout s) = logout s ∧
    (logout s).auth = none ∧ (logout s).user = none ∧
    (logout s).location = "index.html" := by
  refine ⟨rfl, fun m h => by simp [apiFetch] at h, ?_, rfl, rfl, rfl, rfl⟩
  unfold teardownCount
  rw [List.countP_eq_length_filter]
  congr 1
  apply List.filter_congr
  intro st _
  by_cases h : st = 401
  · simp [h, apiFetch]
  · simp only [h, decide_False]
    simp only [apiFetch, h, if_false]
    by_cases hok : respOk st = true
    · simp [hok]
    · simp [hok]

/-- C6: `sortBy col` flips the direction (asc to desc or back) when
`col` is the current sort column and leaves the column unchanged;
otherwise it sets the column to `col` with ascending direction.  In
both cases `page` is reset to 0, every other field is unchanged, and
the resulting direction is always one of the two defined values. -/
theorem c6_sortBy_spec (s : State) (col : String)
    (h : s.direction = "asc" ∨ s.direction = "desc") :
    (sortBy col s).page = 0 ∧
    ((sortBy col s).direction = "asc" ∨ (sortBy col s).direction = "desc") ∧
    (s.sort = col →
      (sortBy col s).sort = s.sort ∧
      (s.direction = "asc" → (sortBy col s).direction = "desc") ∧
      (s.direction = "desc" → (sortBy col s).direction = "asc")) ∧
    (s.sort ≠ col → (sortBy col s).sort = col ∧ (sortBy col s).direction = "asc") ∧
    (sortBy col s).size = s.size ∧ (sortBy col s).status = s.status ∧
    (sortBy col s).type = s.type ∧ (sortBy col s).q = s.q ∧
    (sortBy col s).totalPages = s.totalPages ∧
    (sortBy col s).totalItems = s.totalItems := by
  unfold sortBy
  by_cases hcol : s.sort = col
  · simp only [hcol, if_pos rfl]
    rcases h with h | h
    · simp [h]
    · have hne : s.direction ≠ "asc" := by rw [h]; decide
      simp [h, hne]
  · simp [hcol]

/-- C8: `goToPage n` with `n` out of range (negative or at least
`totalPages`) leaves every field of the state unchanged and issues no
reload; with `n` in range it sets `page := n`, leaves every other field
unchanged, and issues exactly one reload.  (The function is total, so
no error is raised in either case.) -/
theorem c8_goToPage_spec (p : Int) (s : State) :
    ((p < 0 ∨ (s.totalPages : Int) ≤ p) → goToPage p s = (s, 0)) ∧
    ((0 ≤ p ∧ p < (s.totalPages : Int)) →
      (goToPage p s).fst.page = p.toNat ∧
      (goToPage p s).fst.size = s.size ∧
      (goToPage p s).fst.sort = s.sort ∧
      (goToPage p s).fst.direction = s.direction ∧
      (goToPage p s).fst.status = s.status ∧
      (goToPage p s).fst.type = s.type ∧
      (goToPage p s).fst.q = s.q ∧
      (goToPage p s).fst.totalPages = s.totalPages ∧
      (goToPage p s).fst.totalItems = s.totalItems ∧
      (goToPage p s).snd = 1) := by
  constructor
  · intro h
    simp [goToPage, h]
  · intro h
    have hcond : ¬ (p < 0 ∨ (s.totalPages : Int) ≤ p) := by omega
    simp [goToPage, hcond]

/-- C8 witness: out-of-range `goToPage (-1)` on the initial state is a
no-op with no reload; in-range `goToPage 1` after observing 3 total
pages moves to page 1 with one reload and no other change. -/
theorem c8_goToPage_spec_witness :
    goToPage (-1) initState = (initState, 0) ∧
    (goToPage 1 { initState with totalPages := 3 }).fst.page = 1 ∧
    (goToPage 1 { initState with totalPages := 3 }).fst.q =
      ({ initState with totalPages := 3 } : State).q ∧
    (goToPage 1 { initState with totalPages := 3 }).snd = 1 := by
  refine ⟨(c8_goToPage_spec (-1) initState).1 (by left; decide), ?_, ?_, ?_⟩
  · exact ((c8_goToPage_spec 1 { initState with totalPages := 3 }).2 (by constructor <;> decide)).1
  · exact ((c8_goToPage_spec 1 { initState with totalPages := 3 }).2
      (by constructor <;> decide)).2.2.2.2.2.2.1
  · exact ((c8_goToPage_spec 1 { initState with totalPages := 3 }).2
      (by constructor <;> decide)).2.2.2.2.2.2.2.2.2

/-- C6 witness: on the initial state (sorted by name ascending),
`sortBy "name"` keeps the column, flips to descending, and resets the
page; the direction is one of the two defined values. -/
theorem c6_sortBy_spec_witness :
    (sortBy "name" initState).page = 0 ∧
    (sortBy "name" initState).direction = "desc" ∧
    (sortBy "name" initState).sort = "name" := by
  have h := c6_sortBy_spec initState "name" (Or.inl rfl)
  exact ⟨h.1, (h.2.2.1 rfl).2.1 rfl, (h.2.2.1 rfl).1⟩

/-- C9: a failed list reload replaces the table area with the explicit
error display carrying the failure message, and this display differs
from the "no results" view that a successful reload with
`{content: [], totalElements: 0, totalPages: 0}` renders. -/
theorem c9_failed_reload_error_display (msg : String) :
    loadDevicesView (FetchOutcome.failure msg) = TableView.errorView msg ∧
    loadDevicesView (FetchOutcome.success
      { content := some [], totalElements := some 0, totalPages := some 0 }) =
      TableView.noResults ∧
    TableView.errorView msg ≠ TableView.noResults := by
  refine ⟨rfl, rfl, ?_⟩
  intro h
  cases h

-- ---------------------------------------------------------------------------
-- Pagination lemmas
-- ---------------------------------------------------------------------------

theorem mem_setAdd {l : List Nat} {y x : Nat} : x ∈ setAdd l y ↔ x ∈ l ∨ x = y := by
  unfold setAdd
  split
  · rename_i h
    constructor
    · exact Or.inl
    · rintro (hx | rfl)
      · exact hx
      · exact h
  · simp

theorem nodup_setAdd {l : List Nat} (h : l.Nodup) (y : Nat) : (setAdd l y).Nodup := by
  unfold setAdd
  split
  · exact h
  · rename_i hy
    simp [List.nodup_append, h, hy]

theorem mem_foldl_setAdd (l : List Nat) (init : List Nat) (x : Nat) :
    x ∈ l.foldl setAdd init ↔ x ∈ init ∨ x ∈ l := by
  induction l generalizing init with
  | nil => simp
  | cons a l ih =>
    simp only [List.foldl_cons, ih, mem_setAdd, List.mem_cons]
    tauto

theorem nodup_foldl_setAdd (l : List Nat) (init : List Nat) (h : init.Nodup) :
    (l.foldl setAdd init).Nodup := by
  induction l generalizing init with
  | nil => exact h
  | cons a l ih => exact ih _ (nodup_setAdd h a)

theorem mem_natRangeFromTo {lo hi x : Nat} :
    x ∈ natRangeFromTo lo hi ↔ lo ≤ x ∧ x ≤ hi := by
  unfold natRangeFromTo
  simp only [List.mem_map, List.mem_range]
  constructor
  · rintro ⟨a, ha, rfl⟩
    omega
  · rintro ⟨h1, h2⟩
    exact ⟨x - lo, by omega, by omega⟩

theorem sorted_lt_natRangeFromTo (lo hi : Nat) : (natRangeFromTo lo hi).Sorted (· < ·) := by
  have h := List.sorted_lt_range (hi + 1 - lo)
  unfold natRangeFromTo
  exact List.pairwise_map.mpr (h.imp (fun hab => by omega))

theorem sorted_lt_canonical (c t : Nat) (ht : 7 < t) :
    (0 :: (natRangeFromTo (max 1 (c - 2)) (min (t - 2) (c + 2)) ++ [t - 1])).Sorted (· < ·) := by
  rw [List.sorted_cons]
  constructor
  · intro b hb
    rcases List.mem_append.mp hb with h | h
    · have := mem_natRangeFromTo.mp h
      omega
    · simp only [List.mem_singleton] at h
      omega
  · show List.Pairwise _ _
    rw [List.pairwise_append]
    refine ⟨sorted_lt_natRangeFromTo _ _, by simp, ?_⟩
    intro a ha b hb
    have h1 := mem_natRangeFromTo.mp ha
    simp only [List.mem_singleton] at hb
    omega

theorem eq_canonical_of_sorted_mem (c t : Nat) (ht : 7 < t) (l : List Nat)
    (hs : l.Sorted (· < ·))
    (hm : ∀ a, a ∈ l ↔
      (a = 0 ∨ (max 1 (c - 2) ≤ a ∧ a ≤ min (t - 2) (c + 2)) ∨ a = t - 1)) :
    l = 0 :: (natRangeFromTo (max 1 (c - 2)) (min (t - 2) (c + 2)) ++ [t - 1]) := by
  haveI : IsAntisymm Nat (· < ·) := ⟨fun a b h1 h2 => absurd h2 (Nat.lt_asymm h1)⟩
  have hcanon := sorted_lt_canonical c t ht
  refine List.eq_of_perm_of_sorted ?_ hs hcanon
  refine (List.perm_ext_iff_of_nodup hs.nodup hcanon.nodup).mpr ?_
  intro a
  rw [hm]
  simp only [List.mem_cons, List.mem_append, mem_natRangeFromTo, List.mem_singleton,
    List.not_mem_nil, or_false]

theorem mem_pageSetList {c t x : Nat} :
    x ∈ pageSetList c t ↔
      x = 0 ∨ x = t - 1 ∨ x = c ∨
        (max 1 (c - 2) ≤ x ∧ x ≤ min (t - 2) (c + 2)) := by
  unfold pageSetList
  rw [mem_foldl_setAdd, mem_setAdd, mem_setAdd, mem_setAdd, mem_natRangeFromTo]
  simp only [List.not_mem_nil, false_or]
  tauto

theorem nodup_pageSetList (c t : Nat) : (pageSetList c t).Nodup := by
  unfold pageSetList
  exact nodup_foldl_setAdd _ _
    (nodup_setAdd (nodup_setAdd (nodup_setAdd List.nodup_nil 0) (t - 1)) c)

theorem sortedPages_eq (c t : Nat) (hc : c < t) (ht : 7 < t) :
    sortedPages c t =
      0 :: (natRangeFromTo (max 1 (c - 2)) (min (t - 2) (c + 2)) ++ [t - 1]) := by
  have hperm := List.perm_insertionSort (α := Nat) (· ≤ ·) (pageSetList c t)
  have hnodup : (sortedPages c t).Nodup :=
    (hperm.nodup_iff).mpr (nodup_pageSetList c t)
  have hle : (sortedPages c t).Sorted (· ≤ ·) :=
    List.sorted_insertionSort (· ≤ ·) (pageSetList c t)
  refine eq_canonical_of_sorted_mem c t ht _ (hle.lt_of_le hnodup) ?_
  intro a
  rw [show sortedPages c t = (pageSetList c t).insertionSort (· ≤ ·) from rfl,
    List.mem_insertionSort, mem_pageSetList]
  omega

theorem specPageNumbers_eq (c t : Nat) (hc : c < t) (ht : 7 < t) :
    specPageNumbers c t =
      0 :: (natRangeFromTo (max 1 (c - 2)) (min (t - 2) (c + 2)) ++ [t - 1]) := by
  have hs : (specPageNumbers c t).Sorted (· < ·) :=
    List.Pairwise.filter _ (List.sorted_lt_range t)
  refine eq_canonical_of_sorted_mem c t ht _ hs ?_
  intro a
  unfold specPageNumbers
  simp only [List.mem_filter, List.mem_range, decide_eq_true_eq]
  omega

theorem specWalk_eq_withEllipsis : ∀ (prev : Nat) (l : List Nat),
    specWalk prev l = withEllipsis prev l
| _, [] => rfl
| prev, p :: rest => by
  unfold specWalk withEllipsis
  rw [specWalk_eq_withEllipsis p rest]

theorem natRangeFromTo_eq_consRun : ∀ (n lo : Nat),
    (List.range n).map (· + lo) = consRun lo n
| 0, _ => rfl
| n + 1, lo => by
  rw [List.range_succ_eq_map, List.map_cons, List.map_map]
  have hf : ((· + lo) ∘ Nat.succ) = (· + (lo + 1)) :=
    funext fun x => by simp only [Function.comp_apply]; omega
  rw [hf, natRangeFromTo_eq_consRun n (lo + 1)]
  simp [consRun]

theorem pageCount_append (l1 l2 : List PageItem) :
    pageCount (l1 ++ l2) = pageCount l1 + pageCount l2 :=
  List.countP_append _ _ _

theorem ellipsisCount_append (l1 l2 : List PageItem) :
    ellipsisCount (l1 ++ l2) = ellipsisCount l1 + ellipsisCount l2 :=
  List.countP_append _ _ _

theorem pageCount_withEllipsis : ∀ (prev : Nat) (l : List Nat),
    pageCount (withEllipsis prev l) = l.length
| _, [] => rfl
| prev, p :: rest => by
  unfold withEllipsis
  rw [pageCount_append, pageCount_withEllipsis p rest]
  split <;> simp [pageCount, List.countP_cons, List.countP_nil] <;> omega

theorem withEllipsis_append : ∀ (l1 : List Nat) (prev : Nat) (l2 : List Nat),
    withEllipsis prev (l1 ++ l2) =
      withEllipsis prev l1 ++ withEllipsis (l1.getLastD prev) l2
| [], prev, l2 => by simp [withEllipsis]
| a :: l1, prev, l2 => by
  rw [List.cons_append]
  unfold withEllipsis
  rw [withEllipsis_append l1 a l2, List.getLastD_cons, List.append_assoc]
  congr 2
  cases l2 <;> rfl

theorem ellipsisCount_withEllipsis_consRun : ∀ (n start prev : Nat),
    start ≤ prev + 1 →
    ellipsisCount (withEllipsis prev (consRun start n)) = 0
| 0, _, _, _ => rfl
| n + 1, start, prev, h => by
  unfold consRun withEllipsis
  rw [ellipsisCount_append,
    ellipsisCount_withEllipsis_consRun n (start + 1) start (by omega)]
  have hgap : ¬ start - prev > 1 := by omega
  simp [hgap, ellipsisCount, List.countP_cons, List.countP_nil]

theorem ellipsisCount_withEllipsis_consRun_le (n start prev : Nat) :
    ellipsisCount (withEllipsis prev (consRun start n)) ≤ 1 := by
  cases n with
  | zero => simp [consRun, withEllipsis, ellipsisCount, List.countP_nil]
  | succ n =>
    unfold consRun withEllipsis
    rw [ellipsisCount_append,
      ellipsisCount_withEllipsis_consRun n (start + 1) start (by omega)]
    split <;> simp [ellipsisCount, List.countP_cons, List.countP_nil]

theorem ellipsisCount_withEllipsis_single (prev x : Nat) :
    ellipsisCount (withEllipsis prev [x]) ≤ 1 := by
  unfold withEllipsis
  split <;> simp [withEllipsis, ellipsisCount, List.countP_cons, List.countP_nil]

theorem pageCount_map_page (l : List Nat) : pageCount (l.map PageItem.page) = l.length := by
  induction l with
  | nil => rfl
  | cons a l ih => simp [pageCount, List.countP_cons] at ih ⊢

theorem ellipsisCount_map_page (l : List Nat) : ellipsisCount (l.map PageItem.page) = 0 := by
  induction l with
  | nil => rfl
  | cons a l ih => simp [ellipsisCount, List.countP_cons] at ih ⊢

theorem length_natRangeFromTo (lo hi : Nat) : (natRangeFromTo lo hi).length = hi + 1 - lo := by
  simp [natRangeFromTo]

/-- C4: for every `currentPage < totalPages` the pagination range built
by `buildPageRange` equals the range prescribed by the spec: all pages
in order when `totalPages ≤ 7`, otherwise the sorted set
`{0, totalPages-1, currentPage}` united with every page within distance
2 of `currentPage` clamped to `[1, totalPages-2]`, with an ellipsis
between consecutive entries that differ by more than 1; in particular
`buildPageRange 5 10` is exactly `[0, …, 3, 4, 5, 6, 7, …, 9]`. -/
theorem c4_buildPageRange_matches_spec :
    (∀ current total : Nat, current < total →
      buildPageRange current total = specPageRange current total) ∧
    buildPageRange 5 10 =
      [PageItem.page 0, PageItem.ellipsis, PageItem.page 3, PageItem.page 4,
       PageItem.page 5, PageItem.page 6, PageItem.page 7, PageItem.ellipsis,
       PageItem.page 9] := by
  constructor
  · intro c t hc
    unfold buildPageRange specPageRange
    by_cases h7 : t ≤ 7
    · simp [h7]
    · rw [if_neg h7, if_neg h7, sortedPages_eq c t hc (by omega),
        specPageNumbers_eq c t hc (by omega)]
      simp only
      rw [specWalk_eq_withEllipsis]
  · decide

/-- C4 witness: instantiating the general part at `currentPage = 2,
totalPages = 9` (hypothesis `2 < 9` discharged) gives equal code and
spec ranges. -/
theorem c4_buildPageRange_matches_spec_witness :
    buildPageRange 2 9 = specPageRange 2 9 :=
  c4_buildPageRange_matches_spec.1 2 9 (by decide)

/-- C5: for every `currentPage < totalPages` the pagination range holds
at most 7 concrete page numbers and at most 2 ellipsis markers, however
large `totalPages` is. -/
theorem c5_buildPageRange_bounded (current total : Nat) (h : current < total) :
    pageCount (buildPageRange current total) ≤ 7 ∧
    ellipsisCount (buildPageRange current total) ≤ 2 := by
  unfold buildPageRange
  by_cases h7 : total ≤ 7
  · rw [if_pos h7]
    rw [pageCount_map_page, ellipsisCount_map_page]
    simp [h7]
  · rw [if_neg h7, sortedPages_eq current total h (by omega)]
    simp only
    have hrun : natRangeFromTo (max 1 (current - 2)) (min (total - 2) (current + 2)) =
        consRun (max 1 (current - 2))
          (min (total - 2) (current + 2) + 1 - max 1 (current - 2)) := by
      unfold natRangeFromTo
      exact natRangeFromTo_eq_consRun _ _
    constructor
    · rw [show pageCount (PageItem.page 0 ::
          withEllipsis 0 (natRangeFromTo (max 1 (current - 2))
            (min (total - 2) (current + 2)) ++ [total - 1])) =
          1 + pageCount (withEllipsis 0 (natRangeFromTo (max 1 (current - 2))
            (min (total - 2) (current + 2)) ++ [total - 1])) by
          simp [pageCount, List.countP_cons]; omega]
      rw [pageCount_withEllipsis, List.length_append, length_natRangeFromTo]
      simp only [List.length_singleton]
      omega
    · rw [show ellipsisCount (PageItem.page 0 ::
          withEllipsis 0 (natRangeFromTo (max 1 (current - 2))
            (min (total - 2) (current + 2)) ++ [total - 1])) =
          ellipsisCount (withEllipsis 0 (natRangeFromTo (max 1 (current - 2))
            (min (total - 2) (current + 2)) ++ [total - 1])) by
          simp [ellipsisCount, List.countP_cons]]
      rw [withEllipsis_append, ellipsisCount_append]
      have h1 : ellipsisCount (withEllipsis 0 (natRangeFromTo (max 1 (current - 2))
          (min (total - 2) (current + 2)))) ≤ 1 := by
        rw [hrun]
        exact ellipsisCount_withEllipsis_consRun_le _ _ _
      have h2 := ellipsisCount_withEllipsis_single
        ((natRangeFromTo (max 1 (current - 2))
          (min (total - 2) (current + 2))).getLastD 0) (total - 1)
      omega

/-- C5 witness: at `currentPage = 50, totalPages = 1000` (hypothesis
`50 < 1000` discharged) the range shows at most 7 page links and at
most 2 ellipses. -/
theorem c5_buildPageRange_bounded_witness :
    pageCount (buildPageRange 50 1000) ≤ 7 ∧
    ellipsisCount (buildPageRange 50 1000) ≤ 2 :=
  c5_buildPageRange_bounded 50 1000 (by decide)

-- ---------------------------------------------------------------------------
-- Debouncer lemmas and C7
-- ---------------------------------------------------------------------------

theorem runNotifies_chain : ∀ (rest : List (Nat × String)) (p : Nat × String)
    (cs : List String),
    List.Chain (fun a b : Nat × String => a.fst ≤ b.fst ∧ b.fst < a.fst + searchWindow)
      p rest →
    rest.foldl notifyStep { pending := some (p.fst + searchWindow, p.snd), commits := cs } =
      { pending := some (((p :: rest).getLastD p).fst + searchWindow,
                         ((p :: rest).getLastD p).snd),
        commits := cs }
| [], p, cs, _ => rfl
| b :: rest, p, cs, h => by
  rcases h with _ | ⟨⟨hle, hlt⟩, hchain⟩
  rw [List.foldl_cons]
  have hstep : notifyStep { pending := some (p.fst + searchWindow, p.snd), commits := cs } b =
      { pending := some (b.fst + searchWindow, b.snd), commits := cs } := by
    unfold notifyStep
    have hno : ¬ p.fst + searchWindow ≤ b.fst := by omega
    simp [hno]
  rw [hstep, runNotifies_chain rest b cs hchain]
  simp only [List.getLastD_cons]

/-- C7: a burst of `notify` calls in which every call happens within
`searchWindow` (350 logical ms) of its predecessor, followed by at
least a window of silence, commits exactly one search update, whose
value is the text of the last call — every earlier pending commit is
cancelled; the commit writes the trimmed text into the query state,
resets the page index to 0, and issues exactly one reload. -/
theorem c7_searchDebounce_spec (e : Nat × String) (rest : List (Nat × String))
    (hchain : List.Chain
      (fun a b : Nat × String => a.fst ≤ b.fst ∧ b.fst < a.fst + searchWindow) e rest) :
    (flushQuiet (runNotifies (e :: rest))).commits = [((e :: rest).getLastD e).snd] ∧
    (flushQuiet (runNotifies (e :: rest))).pending = none ∧
    ∀ s : State,
      (commitSearch ((e :: rest).getLastD e).snd s).fst.q =
        ((e :: rest).getLastD e).snd.trim ∧
      (commitSearch ((e :: rest).getLastD e).snd s).fst.page = 0 ∧
      (commitSearch ((e :: rest).getLastD e).snd s).snd = 1 := by
  have hrun : runNotifies (e :: rest) =
      { pending := some (((e :: rest).getLastD e).fst + searchWindow,
                         ((e :: rest).getLastD e).snd),
        commits := [] } := by
    unfold runNotifies
    rw [List.foldl_cons]
    have hstep : notifyStep { pending := none, commits := [] } e =
        { pending := some (e.fst + searchWindow, e.snd), commits := [] } := rfl
    rw [hstep, runNotifies_chain rest e [] hchain]
  rw [hrun]
  exact ⟨rfl, rfl, fun s => ⟨rfl, rfl, rfl⟩⟩

/-- C7 witness: the burst `notify "a"`, `notify "ab"`, `notify "abc"`
at times 0, 100, 200 (each within 350 of its predecessor) followed by
silence commits exactly `["abc"]`, and the commit resets the page and
issues one reload. -/
theorem c7_searchDebounce_spec_witness :
    (flushQuiet (runNotifies [(0, "a"), (100, "ab"), (200, "abc")])).commits = ["abc"] ∧
    (commitSearch "abc" initState).fst.page = 0 ∧
    (commitSearch "abc" initState).snd = 1 := by
  have h := c7_searchDebounce_spec (0, "a") [(100, "ab"), (200, "abc")]
    (List.Chain.cons (by constructor <;> decide)
      (List.Chain.cons (by constructor <;> decide) List.Chain.nil))
  exact ⟨h.1, (h.2.2 initState).2.1, (h.2.2 initState).2.2⟩

-- ---------------------------------------------------------------------------
-- escapeHtml lemmas and C10
-- ---------------------------------------------------------------------------

theorem replaceEach_append (c : Char) (rep : List Char) :
    ∀ l1 l2 : List Char,
      replaceEach c rep (l1 ++ l2) = replaceEach c rep l1 ++ replaceEach c rep l2
| [], _ => rfl
| ch :: l1, l2 => by
  rw [List.cons_append]
  unfold replaceEach
  rw [replaceEach_append c rep l1 l2, List.append_assoc]
  congr 2
  cases l2 <;> rfl

theorem escapeChain_append (l1 l2 : List Char) :
    escapeChain (l1 ++ l2) = escapeChain l1 ++ escapeChain l2 := by
  unfold escapeChain
  rw [replaceEach_append, replaceEach_append, replaceEach_append, replaceEach_append,
    replaceEach_append]

theorem escapeChain_single (ch : Char) : escapeChain [ch] = escapeCharSpec ch := by
  by_cases h1 : ch = '&'
  · subst h1; decide
  by_cases h2 : ch = '<'
  · subst h2; decide
  by_cases h3 : ch = '>'
  · subst h3; decide
  by_cases h4 : ch = quoteChar
  · subst h4; decide
  by_cases h5 : ch = aposChar
  · subst h5; decide
  unfold escapeChain escapeCharSpec replaceEach
  simp [h1, h2, h3, h4, h5, replaceEach]

theorem escapeChain_eq_spec : ∀ l : List Char,
    escapeChain l = (l.map escapeCharSpec).flatten
| [] => rfl
| ch :: l => by
  rw [show ch :: l = [ch] ++ l from rfl, escapeChain_append, escapeChain_single,
    List.map_append, List.flatten_append, escapeChain_eq_spec l]
  simp

theorem escapeCharSpec_safe (ch c : Char) (h : c ∈ escapeCharSpec ch) :
    c ≠ '<' ∧ c ≠ '>' ∧ c ≠ quoteChar ∧ c ≠ aposChar := by
  unfold escapeCharSpec at h
  split_ifs at h with h1 h2 h3 h4 h5
  · rw [show "&amp;".data = ['&', 'a', 'm', 'p', ';'] from rfl] at h
    simp only [List.mem_cons, List.not_mem_nil, or_false] at h
    rcases h with rfl | rfl | rfl | rfl | rfl <;> decide
  · rw [show "&lt;".data = ['&', 'l', 't', ';'] from rfl] at h
    simp only [List.mem_cons, List.not_mem_nil, or_false] at h
    rcases h with rfl | rfl | rfl | rfl <;> decide
  · rw [show "&gt;".data = ['&', 'g', 't', ';'] from rfl] at h
    simp only [List.mem_cons, List.not_mem_nil, or_false] at h
    rcases h with rfl | rfl | rfl | rfl <;> decide
  · rw [show "&quot;".data = ['&', 'q', 'u', 'o', 't', ';'] from rfl] at h
    simp only [List.mem_cons, List.not_mem_nil, or_false] at h
    rcases h with rfl | rfl | rfl | rfl | rfl | rfl <;> decide
  · rw [show "&#39;".data = ['&', '#', '3', '9', ';'] from rfl] at h
    simp only [List.mem_cons, List.not_mem_nil, or_false] at h
    rcases h with rfl | rfl | rfl | rfl | rfl <;> decide
  · simp only [List.mem_cons, List.not_mem_nil, or_false] at h
    subst h
    exact ⟨h2, h3, h4, h5⟩

/-- C10: `escapeHtml` is total; `null`/`undefined` input yields the
empty string; on any string it agrees with the per-character entity
substitution (each of `&`, `<`, `>`, double quote and single quote
becomes its HTML entity, every other character passes through); and
its output never contains a raw `<`, `>`, double-quote or single-quote
character. -/
theorem c10_escapeHtml_spec :
    escapeHtml none = "" ∧
    (∀ s : String, escapeHtml (some s) = escapeHtmlSpec s) ∧
    (∀ (s : String) (c : Char), c ∈ (escapeHtml (some s)).data →
      c ≠ '<' ∧ c ≠ '>' ∧ c ≠ quoteChar ∧ c ≠ aposChar) := by
  refine ⟨rfl, ?_, ?_⟩
  · intro s
    show (⟨escapeChain s.data⟩ : String) = ⟨(s.data.map escapeCharSpec).flatten⟩
    rw [escapeChain_eq_spec]
  · intro s c hc
    have hc2 : c ∈ (s.data.map escapeCharSpec).flatten := by
      rw [show (escapeHtml (some s)).data = escapeChain s.data from rfl,
        escapeChain_eq_spec] at hc
      exact hc
    rcases List.mem_flatten.mp hc2 with ⟨blk, hblk, hcb⟩
    rcases List.mem_map.mp hblk with ⟨ch, _, rfl⟩
    exact escapeCharSpec_safe ch c hcb

/-- C10 witness: the no-raw-character clause applied to the character
`a` of `escapeHtml "a<b"` (membership discharged by evaluation),
together with the closed clauses. -/
theorem c10_escapeHtml_spec_witness :
    escapeHtml none = "" ∧
    escapeHtml (some "a<b") = escapeHtmlSpec "a<b" ∧
    ('a' ≠ '<' ∧ 'a' ≠ '>' ∧ 'a' ≠ quoteChar ∧ 'a' ≠ aposChar) :=
  ⟨c10_escapeHtml_spec.1, c10_escapeHtml_spec.2.1 "a<b",
    c10_escapeHtml_spec.2.2 "a<b" 'a' (by decide)⟩

/-- C3 amended witness: three in-flight responses with statuses 401,
500, 401 trigger teardown twice — once per 401 response. -/
theorem c3_teardown_once_per_401_witness :
    teardownCount [401, 500, 401] = 2 := by
  have h := c3_teardown_once_per_401 [401, 500, 401] "boom"
    { auth := some "tok", user := some "u", location := "devices.html" }
  rw [h.2.2.1]
  decide

/-- C9 witness: a reload failing with message `HTTP 500` renders the
error display, while the empty successful response renders the distinct
no-results display. -/
theorem c9_failed_reload_error_display_witness :
    loadDevicesView (FetchOutcome.failure "HTTP 500") = TableView.errorView "HTTP 500" ∧
    loadDevicesView (FetchOutcome.success
      { content := some [], totalElements := some 0, totalPages := some 0 }) =
      TableView.noResults ∧
    TableView.errorView "HTTP 500" ≠ TableView.noResults :=
  c9_failed_reload_error_display "HTTP 500"
